import Mathlib

/-!
Verification of the multi-language function-boundary extraction engine of
this repository (`gf_extractors.py`, `gf_scanner.py`).

Modelling conventions: Python strings are `List Char`, line sequences are
`List (List Char)`, Python integers are `Int` (or `Nat` where the source
keeps the value a count or a 1-based line number).  The Python `re` engine
and the `ast` parser are external libraries: a compiled regular expression
is modelled as a function `List Char → Option (List Char)` returning the
captured name on a match, and the parser as a function returning
`Except String (List PyNode)` whose error case models a raised
`SyntaxError`.  Everything else is translated directly from the source.
-/

/-- The opening curly bracket character (written via its code point). -/
def openBrace : Char := Char.ofNat 123

/-- The closing curly bracket character (written via its code point). -/
def closeBrace : Char := Char.ofNat 125

/-- Python `str.splitlines` restricted to `\n` line boundaries, auxiliary
accumulator pass. -/
def pySplitlinesAux : List Char → List Char → List (List Char)
  | [], acc => [acc.reverse]
  | c :: cs, acc =>
    if c = '\n' then acc.reverse :: pySplitlinesAux cs []
    else pySplitlinesAux cs (c :: acc)

/-- Python `str.splitlines` (for `\n`-separated text): no empty final line
for text ending in a newline, and the empty string has no lines. -/
def pySplitlines (s : List Char) : List (List Char) :=
  if s.isEmpty then []
  else if s.getLast? = some '\n' then (pySplitlinesAux s []).dropLast
  else pySplitlinesAux s []

/-- Python `str.isspace` on one character (ASCII whitespace as in CPython:
space, tab, newline, vertical tab, form feed, carriage return). -/
def py_isspace (c : Char) : Bool :=
  c = ' ' || c = '\t' || c = '\n' || c = '\x0b' || c = '\x0c' || c = '\r'

/-- Python `str.strip()`: drop leading and trailing whitespace. -/
def py_strip (s : List Char) : List Char :=
  ((s.dropWhile py_isspace).reverse.dropWhile py_isspace).reverse

/-- One character of the brace scan of `find_brace_block_end`
(`gf_scanner.py` lines 34-39): an opening brace increments the depth and
records that a brace was opened; a closing brace decrements only while the
depth is positive; any other character leaves the state unchanged. -/
def braceCharStep (depth : Int) (seen_open : Bool) (c : Char) : Int × Bool :=
  if c = openBrace then (depth + 1, true)
  else if c = closeBrace ∧ 0 < depth then (depth - 1, seen_open)
  else (depth, seen_open)

/-- The inner character loop of `find_brace_block_end` over one line:
`none` models the early `return` taken when a closing brace brings a positive depth
to zero, otherwise the updated `(depth, seen_open)` state is returned. -/
def scanBraceChars (depth : Int) (seen_open : Bool) :
    List Char → Option (Int × Bool)
  | [] => some (depth, seen_open)
  | c :: cs =>
    let st := braceCharStep depth seen_open c
    if c = closeBrace ∧ 0 < depth ∧ st.1 = 0 then none
    else scanBraceChars st.1 st.2 cs

/-- The line loop of `find_brace_block_end` (`for i in range(start_line - 1,
len(lines))`), carried out on the suffix of the line list starting at the
0-based index `i`.  `Sum.inl r` models the early `return i + 1`;
`Sum.inr seen_open` models falling off the end of the file. -/
def find_brace_block_end_loop (depth : Int) (seen_open : Bool) (i : Nat) :
    List (List Char) → Sum Nat Bool
  | [] => Sum.inr seen_open
  | line :: rest =>
    match scanBraceChars depth seen_open line with
    | none => Sum.inl (i + 1)
    | some st => find_brace_block_end_loop st.1 st.2 (i + 1) rest

/-- `find_brace_block_end` of `gf_scanner.py`: brace-depth extent
resolution from the 1-based `start_line`; on loop exhaustion returns the
number of lines if an opening brace was ever seen, else `start_line`. -/
def find_brace_block_end (lines : List (List Char)) (start_line : Nat) : Nat :=
  match find_brace_block_end_loop 0 false (start_line - 1)
      (lines.drop (start_line - 1)) with
  | Sum.inl r => r
  | Sum.inr seen_open => if seen_open then lines.length else start_line

/-- The line loop of `find_ruby_end_line` (`gf_scanner.py` lines 48-60):
blank and `#`-comment lines are skipped; a stripped line starting with
`"def "` increments the depth; a stripped line equal to or starting with
`"end"` decrements it while positive, returning the 1-based line number
(`some (i + 1)`) when the depth reaches zero.  `none` models reaching the
end of the scanned lines. -/
def find_ruby_end_line_loop (depth : Int) (i : Nat) :
    List (List Char) → Option Nat
  | [] => none
  | line :: rest =>
    let stripped := py_strip line
    if stripped.isEmpty || "#".data.isPrefixOf stripped then
      find_ruby_end_line_loop depth (i + 1) rest
    else
      let d1 := if "def ".data.isPrefixOf stripped then depth + 1 else depth
      if stripped == "end".data || "end".data.isPrefixOf stripped then
        if 0 < d1 then
          if d1 - 1 = 0 then some (i + 1)
          else find_ruby_end_line_loop (d1 - 1) (i + 1) rest
        else find_ruby_end_line_loop d1 (i + 1) rest
      else find_ruby_end_line_loop d1 (i + 1) rest

/-- `find_ruby_end_line` of `gf_scanner.py`: keyword-depth extent
resolution; if the loop reaches the end of the file the number of lines is
returned. -/
def find_ruby_end_line (lines : List (List Char)) (start_line : Nat) : Nat :=
  (find_ruby_end_line_loop 0 (start_line - 1)
      (lines.drop (start_line - 1))).getD lines.length

/-- `infer_end_line` of `gf_scanner.py`: `.rb` files use the keyword-depth
resolver, every other extension the brace-depth resolver. -/
def infer_end_line (extension : String) (lines : List (List Char))
    (start_line : Nat) : Nat :=
  if extension = ".rb" then find_ruby_end_line lines start_line
  else find_brace_block_end lines start_line

/-- A `FunctionHit` of `gf_extractors.py`: one discovered function or
method definition. -/
structure FunctionHit where
  name : List Char
  start_line : Nat
  end_line : Nat
  kind : String
deriving DecidableEq

/-- A node of the Python abstract syntax tree as far as the visitor of
`gf_extractors.py` distinguishes nodes: class definitions, ordinary and
asynchronous function definitions (with their 1-based `lineno` and
`end_lineno`), and any other node with its children (traversed by
`generic_visit`). -/
inductive PyNode where
  | classDef (name : List Char) (body : List PyNode)
  | functionDef (name : List Char) (lineno end_lineno : Nat) (body : List PyNode)
  | asyncFunctionDef (name : List Char) (lineno end_lineno : Nat) (body : List PyNode)
  | other (children : List PyNode)

/-- `PythonFunctionVisitor._name`: the scope stack joined with the node's
own name by dots (the bare name when the stack is empty). -/
def visitor_name (scope : List (List Char)) (name : List Char) : List Char :=
  if scope.isEmpty then name else List.intercalate ['.'] (scope ++ [name])

mutual

/-- One node of the traversal of `PythonFunctionVisitor`: a class pushes
its name on the scope stack around visiting its body; a function (ordinary
or asynchronous, tagged distinctly) emits a hit before its children are
visited with the scope unchanged; other nodes just visit their children. -/
def visitNode (scope : List (List Char)) : PyNode → List FunctionHit
  | .classDef name body => visitList (scope ++ [name]) body
  | .functionDef name lineno end_lineno body =>
      ⟨visitor_name scope name, lineno, end_lineno, "python_function"⟩ ::
        visitList scope body
  | .asyncFunctionDef name lineno end_lineno body =>
      ⟨visitor_name scope name, lineno, end_lineno, "python_async_function"⟩ ::
        visitList scope body
  | .other children => visitList scope children

/-- Traversal of a list of sibling nodes in source order. -/
def visitList (scope : List (List Char)) : List PyNode → List FunctionHit
  | [] => []
  | n :: rest => visitNode scope n ++ visitList scope rest

end

/-- `extract_python_functions` of `gf_extractors.py`: parse the source
(the external `ast.parse`, passed as `parse`; its `Except.error` case
models a raised `SyntaxError`), return the empty list when parsing fails,
else run the visitor over the module body from an empty scope. -/
def extract_python_functions
    (parse : List Char → Except String (List PyNode))
    (source : List Char) : List FunctionHit :=
  match parse source with
  | .error _ => []
  | .ok body => visitList [] body

/-- A compiled regular expression of the pattern-based locators, modelled
as the function the engine observes: applied to a line it returns the
captured `name` group on a match. -/
abbrev RePattern : Type := List Char → Option (List Char)

/-- The per-line pattern dispatch of `_regex_functions`: try the patterns
in order, the first one that matches a line wins. -/
def regex_line_hit (patterns : List RePattern) (line : List Char) :
    Option (List Char) :=
  patterns.findSome? (fun p => p line)

/-- The line loop of `_regex_functions` (`gf_extractors.py` lines 64-69),
carrying the 1-based line number: a matched line contributes exactly one
hit with the sentinel `end_line = 0` and the loop moves to the next line. -/
def regex_functions_loop (patterns : List RePattern) (kind : String) :
    Nat → List (List Char) → List FunctionHit
  | _, [] => []
  | line_no, line :: rest =>
    match regex_line_hit patterns line with
    | some name =>
        ⟨name, line_no, 0, kind⟩ ::
          regex_functions_loop patterns kind (line_no + 1) rest
    | none => regex_functions_loop patterns kind (line_no + 1) rest

/-- `_regex_functions` of `gf_extractors.py`. -/
def _regex_functions (source : List Char) (patterns : List RePattern)
    (kind : String) : List FunctionHit :=
  regex_functions_loop patterns kind 1 (pySplitlines source)

/-- The external regular expressions of the pattern-based locators and the
external Python parser, gathered as the engine's environment. -/
structure Oracles where
  py_parse : List Char → Except String (List PyNode)
  JS_PATTERNS : List RePattern
  go_pattern : RePattern
  java_like_pattern : RePattern
  ruby_pattern : RePattern

/-- `extract_js_functions` of `gf_extractors.py`. -/
def extract_js_functions (o : Oracles) (source : List Char) :
    List FunctionHit :=
  _regex_functions source o.JS_PATTERNS "js_function"

/-- `extract_go_functions` of `gf_extractors.py`. -/
def extract_go_functions (o : Oracles) (source : List Char) :
    List FunctionHit :=
  _regex_functions source [o.go_pattern] "go_function"

/-- `extract_java_like_functions` of `gf_extractors.py`. -/
def extract_java_like_functions (o : Oracles) (source : List Char) :
    List FunctionHit :=
  _regex_functions source [o.java_like_pattern] "java_like_function"

/-- `extract_ruby_functions` of `gf_extractors.py`. -/
def extract_ruby_functions (o : Oracles) (source : List Char) :
    List FunctionHit :=
  _regex_functions source [o.ruby_pattern] "ruby_method"

/-- The values of the `EXTRACTORS` table, one per locator function of
`gf_extractors.py`. -/
inductive ExtractorKind where
  | python | js | go | javaLike | ruby
deriving DecidableEq

/-- The `EXTRACTORS` dispatch table of `gf_extractors.py`: the fixed
mapping from file extension to locator. -/
def EXTRACTORS : List (String × ExtractorKind) :=
  [(".py", .python), (".pyi", .python),
   (".js", .js), (".jsx", .js), (".ts", .js), (".tsx", .js),
   (".go", .go),
   (".java", .javaLike), (".cs", .javaLike),
   (".rb", .ruby),
   (".cpp", .javaLike), (".c", .javaLike), (".cc", .javaLike),
   (".cxx", .javaLike), (".h", .javaLike), (".hpp", .javaLike)]

/-- Run the locator selected by the dispatch table. -/
def runExtractor (o : Oracles) : ExtractorKind → List Char → List FunctionHit
  | .python => extract_python_functions o.py_parse
  | .js => extract_js_functions o
  | .go => extract_go_functions o
  | .javaLike => extract_java_like_functions o
  | .ruby => extract_ruby_functions o

/-- A record of the list returned by `scan_zip_archive`
(`gf_scanner.py` lines 119-131). -/
structure Record where
  repo : String
  path : String
  name : List Char
  start_line : Nat
  end_line : Nat
  kind : String
  extension : String
  body : Option (List Char)
deriving DecidableEq

/-- The end-before-start clamp of `scan_zip_archive`
(`gf_scanner.py` lines 117-118). -/
def clamp_end (start_line actual_end : Nat) : Nat :=
  if actual_end < start_line then start_line else actual_end

/-- The body of the per-hit loop of `scan_zip_archive`
(`gf_scanner.py` lines 112-131): resolve the end line for non-Python
extensions, clamp it, and build the output record (with the optional
joined body text). -/
def make_record (repo path extension : String) (collect_body : Bool)
    (lines : List (List Char)) (hit : FunctionHit) : Record :=
  let resolved_end :=
    if extension = ".py" ∨ extension = ".pyi" then hit.end_line
    else infer_end_line extension lines hit.start_line
  let actual_end := clamp_end hit.start_line resolved_end
  let body :=
    if collect_body then
      let b := List.intercalate ['\n']
        ((lines.drop (hit.start_line - 1)).take
          (actual_end - (hit.start_line - 1)))
      if b.isEmpty then none else some b
    else none
  ⟨repo, path, hit.name, hit.start_line, actual_end, hit.kind, extension, body⟩

/-- The per-file portion of `scan_zip_archive` (`gf_scanner.py` lines
94-132): dispatch on the extension (an unmapped extension contributes
nothing), run the selected locator, and turn every hit into a record.  The
archive unpacking and directory walk around it are file-system I/O and are
not part of the computational engine. -/
def scan_file (o : Oracles) (repo path extension : String)
    (source : List Char) (collect_body : Bool) : List Record :=
  match EXTRACTORS.lookup extension with
  | none => []
  | some k =>
      (runExtractor o k source).map
        (make_record repo path extension collect_body (pySplitlines source))

lemma scanBraceChars_no_open (cs : List Char) (h : openBrace ∉ cs) :
    scanBraceChars 0 false cs = some (0, false) := by
  induction cs with
  | nil => rfl
  | cons c cs ih =>
    have hc : c ≠ openBrace := by
      intro e
      exact h (by simp [e])
    have hrest : openBrace ∉ cs := by
      intro m
      exact h (by simp [m])
    simp [scanBraceChars, braceCharStep, hc, ih hrest]

lemma find_brace_block_end_loop_no_open (ls : List (List Char)) :
    ∀ i : Nat, (∀ l ∈ ls, openBrace ∉ l) →
    find_brace_block_end_loop 0 false i ls = Sum.inr false := by
  induction ls with
  | nil => intro i _; rfl
  | cons l ls ih =>
    intro i h
    have h1 : openBrace ∉ l := h l (List.mem_cons_self l ls)
    have h2 : ∀ x ∈ ls, openBrace ∉ x := fun x m => h x (List.mem_cons_of_mem l m)
    simp [find_brace_block_end_loop, scanBraceChars_no_open l h1, ih (i + 1) h2]

lemma find_brace_block_end_loop_inl_bounds (ls : List (List Char)) :
    ∀ (depth : Int) (seen_open : Bool) (i r : Nat),
      find_brace_block_end_loop depth seen_open i ls = Sum.inl r →
      i + 1 ≤ r ∧ r ≤ i + ls.length := by
  induction ls with
  | nil =>
    intro d s i r h
    simp [find_brace_block_end_loop] at h
  | cons l ls ih =>
    intro d s i r h
    simp only [find_brace_block_end_loop] at h
    cases hsc : scanBraceChars d s l with
    | none =>
      rw [hsc] at h
      simp only [Sum.inl.injEq] at h
      simp only [List.length_cons]
      omega
    | some st =>
      rw [hsc] at h
      have hb := ih st.1 st.2 (i + 1) r h
      simp only [List.length_cons]
      omega

lemma find_ruby_end_line_loop_some_bounds (ls : List (List Char)) :
    ∀ (depth : Int) (i r : Nat),
      find_ruby_end_line_loop depth i ls = some r →
      i + 1 ≤ r ∧ r ≤ i + ls.length := by
  induction ls with
  | nil =>
    intro d i r h
    exact absurd h (by simp [find_ruby_end_line_loop])
  | cons l ls ih =>
    intro d i r h
    simp only [find_ruby_end_line_loop] at h
    simp only [List.length_cons]
    repeat' split at h
    all_goals try simp only [Option.some.injEq] at h
    all_goals try replace h := ih _ _ _ h
    all_goals omega

/-- C1: the brace-depth resolver returns the 1-based number of the line on
which the depth first returns to zero after having been opened (the early
return of the line loop, last conjunct); if the scan ends without any
opening brace having been seen it returns `start_line` (third conjunct),
and if the scan ends with a brace opened but never closed it returns the
last line of the file (fourth conjunct).  On the three-line spec example
(brace opened on line 1, closed on line 3) with `start_line = 1` it
returns 3, and on the unterminated two-line variant it returns 2. -/
theorem C1_brace_resolver :
    (find_brace_block_end (pySplitlines "func f() \x7b\n  x()\n\x7d\n".data) 1
        = 3)
    ∧ (find_brace_block_end (pySplitlines "func f() \x7b\n  x()\n".data) 1
        = 2)
    ∧ (∀ (lines : List (List Char)) (start_line : Nat),
        (∀ l ∈ lines.drop (start_line - 1), openBrace ∉ l) →
        find_brace_block_end lines start_line = start_line)
    ∧ (∀ (lines : List (List Char)) (start_line : Nat),
        find_brace_block_end_loop 0 false (start_line - 1)
            (lines.drop (start_line - 1)) = Sum.inr true →
        find_brace_block_end lines start_line = lines.length)
    ∧ (∀ (lines : List (List Char)) (start_line r : Nat),
        find_brace_block_end_loop 0 false (start_line - 1)
            (lines.drop (start_line - 1)) = Sum.inl r →
        find_brace_block_end lines start_line = r) := by
  refine ⟨by decide, by decide, ?_, ?_, ?_⟩
  · intro lines s h
    simp [find_brace_block_end,
      find_brace_block_end_loop_no_open (lines.drop (s - 1)) (s - 1) h]
  · intro lines s h
    simp [find_brace_block_end, h]
  · intro lines s r h
    simp [find_brace_block_end, h]

/-- C1 witness: the third, fourth and fifth conjuncts of the resolver
theorem instantiated on concrete line sequences (a braceless line, a line
with an unclosed opening brace, and a matched brace pair on one line). -/
theorem C1_brace_resolver_witness :
    find_brace_block_end [['a']] 1 = 1
    ∧ find_brace_block_end [[Char.ofNat 123]] 1 = 1
    ∧ find_brace_block_end [[Char.ofNat 123, Char.ofNat 125]] 1 = 1 :=
  ⟨C1_brace_resolver.2.2.1 [['a']] 1 (by decide),
   C1_brace_resolver.2.2.2.1 [[Char.ofNat 123]] 1 (by decide),
   C1_brace_resolver.2.2.2.2 [[Char.ofNat 123, Char.ofNat 125]] 1 1 (by decide)⟩

/-- C4 counterexample: the claim says every closing brace scanned causes a
decrement of the depth counter, including one seen while the counter is
zero; in the code a closing brace at depth zero is guarded by `depth > 0`
and leaves the counter at zero instead of decrementing it to `-1`. -/
theorem C4_brace_decrement_counterexample :
    (braceCharStep 0 false closeBrace).1 ≠ 0 - 1 := by decide

/-- C4 amended: during the brace-depth scan the counter is incremented on
each opening brace; a closing brace decrements the counter only while it
is positive, and one seen while the counter is zero leaves the state
unchanged. -/
theorem C4_brace_decrement_amended :
    (∀ (depth : Int) (seen_open : Bool), 0 < depth →
        braceCharStep depth seen_open closeBrace = (depth - 1, seen_open))
    ∧ (∀ seen_open : Bool,
        braceCharStep 0 seen_open closeBrace = (0, seen_open))
    ∧ (∀ (depth : Int) (seen_open : Bool),
        braceCharStep depth seen_open openBrace = (depth + 1, true)) := by
  have hne : closeBrace ≠ openBrace := by decide
  refine ⟨?_, ?_, ?_⟩
  · intro d s h
    simp [braceCharStep, hne, h]
  · intro s
    simp [braceCharStep, hne]
  · intro d s
    simp [braceCharStep]

/-- C4 witness: the amended decrement rule applied at depth 2. -/
theorem C4_brace_decrement_amended_witness :
    braceCharStep 2 true closeBrace = (2 - 1, true) :=
  C4_brace_decrement_amended.1 2 true (by decide)

/-- C9: for `1 ≤ start_line ≤ lines.length` both resolvers return a value
between `start_line` and the number of lines, so the caller's
end-before-start clamp never changes a resolver-produced end line. -/
theorem C9_resolver_bounds :
    ∀ (lines : List (List Char)) (start_line : Nat),
      1 ≤ start_line → start_line ≤ lines.length →
      (start_line ≤ find_brace_block_end lines start_line
        ∧ find_brace_block_end lines start_line ≤ lines.length)
      ∧ (start_line ≤ find_ruby_end_line lines start_line
        ∧ find_ruby_end_line lines start_line ≤ lines.length)
      ∧ (∀ extension : String,
          clamp_end start_line (infer_end_line extension lines start_line)
            = infer_end_line extension lines start_line) := by
  intro lines s h1 h2
  have hdroplen : (lines.drop (s - 1)).length = lines.length - (s - 1) :=
    List.length_drop _ _
  have hbrace : s ≤ find_brace_block_end lines s
      ∧ find_brace_block_end lines s ≤ lines.length := by
    cases hl : find_brace_block_end_loop 0 false (s - 1) (lines.drop (s - 1)) with
    | inl r =>
      have hb := find_brace_block_end_loop_inl_bounds _ 0 false _ _ hl
      rw [hdroplen] at hb
      simp [find_brace_block_end, hl]
      omega
    | inr seen =>
      cases seen
      · simp [find_brace_block_end, hl]
        omega
      · simp [find_brace_block_end, hl]
        omega
  have hruby : s ≤ find_ruby_end_line lines s
      ∧ find_ruby_end_line lines s ≤ lines.length := by
    cases hl : find_ruby_end_line_loop 0 (s - 1) (lines.drop (s - 1)) with
    | none =>
      simp [find_ruby_end_line, hl]
      omega
    | some r =>
      have hb := find_ruby_end_line_loop_some_bounds _ 0 _ _ hl
      rw [hdroplen] at hb
      simp [find_ruby_end_line, hl]
      omega
  refine ⟨hbrace, hruby, ?_⟩
  intro ext
  unfold infer_end_line clamp_end
  by_cases hrb : ext = ".rb"
  · rw [if_pos hrb, if_neg (by omega)]
  · rw [if_neg hrb, if_neg (by omega)]

/-- C9 witness: on a one-line file with `start_line = 1` the clamp is a
no-op on the resolver result. -/
theorem C9_resolver_bounds_witness :
    clamp_end 1 (infer_end_line ".go" [['a']] 1)
      = infer_end_line ".go" [['a']] 1 :=
  (C9_resolver_bounds [['a']] 1 (by decide) (by decide)).2.2 ".go"

lemma make_record_start_le_end (repo path extension : String)
    (collect_body : Bool) (lines : List (List Char)) (hit : FunctionHit) :
    (make_record repo path extension collect_body lines hit).start_line
      ≤ (make_record repo path extension collect_body lines hit).end_line := by
  simp only [make_record, clamp_end]
  split <;> split <;> omega

/-- C2: every record produced by the per-hit loop of `scan_zip_archive`
satisfies `end_line ≥ start_line` — an end reported smaller than the start
by a resolver or locator is clamped to the start before the record is
built. -/
theorem C2_scan_records_clamped :
    ∀ (o : Oracles) (repo path extension : String) (source : List Char)
      (collect_body : Bool) (r : Record),
      r ∈ scan_file o repo path extension source collect_body →
      r.start_line ≤ r.end_line := by
  intro o repo path ext src cb r hr
  unfold scan_file at hr
  cases hk : EXTRACTORS.lookup ext with
  | none =>
    rw [hk] at hr
    simp at hr
  | some k =>
    rw [hk] at hr
    simp only [List.mem_map] at hr
    obtain ⟨hit, _, hmk⟩ := hr
    rw [← hmk]
    exact make_record_start_le_end repo path ext cb (pySplitlines src) hit

/-- C2 witness: the clamp invariant on the one record produced by scanning
a one-line Go file with a match-everything pattern. -/
theorem C2_scan_records_clamped_witness :
    (Record.mk "r" "p" ['x'] 1 1 "go_function" ".go" none).start_line
      ≤ (Record.mk "r" "p" ['x'] 1 1 "go_function" ".go" none).end_line :=
  C2_scan_records_clamped
    ⟨fun _ => Except.error "SyntaxError", [], fun l => some l,
      fun _ => none, fun _ => none⟩
    "r" "p" ".go" "x".data false
    (Record.mk "r" "p" ['x'] 1 1 "go_function" ".go" none)
    (by decide)

/-- C8: a file whose extension is not a key of the `EXTRACTORS` mapping is
silently excluded — the per-file scan produces no record for it and no
error. -/
theorem C8_unknown_extension_skipped :
    ∀ (o : Oracles) (repo path extension : String) (source : List Char)
      (collect_body : Bool),
      EXTRACTORS.lookup extension = none →
      scan_file o repo path extension source collect_body = [] := by
  intro o repo path ext src cb h
  unfold scan_file
  rw [h]

/-- C8 witness: `.md` is not in the dispatch table, so scanning a `.md`
file yields no records. -/
theorem C8_unknown_extension_skipped_witness :
    scan_file
      ⟨fun _ => Except.error "SyntaxError", [], fun _ => none,
        fun _ => none, fun _ => none⟩
      "r" "p" ".md" "x".data false = [] :=
  C8_unknown_extension_skipped _ "r" "p" ".md" "x".data false (by decide)

/-- C3: the exact-syntax locator fails closed — whenever the parser
signals an error (the `SyntaxError` channel of `ast.parse`), the locator
returns the empty hit sequence instead of propagating the error; its
return type carries no error channel at all. -/
theorem C3_python_locator_fails_closed :
    ∀ (parse : List Char → Except String (List PyNode)) (source : List Char)
      (msg : String),
      parse source = Except.error msg →
      extract_python_functions parse source = [] := by
  intro parse src msg h
  unfold extract_python_functions
  rw [h]

/-- C3 witness: a parser rejecting its input makes the locator return the
empty sequence on `"("`. -/
theorem C3_python_locator_fails_closed_witness :
    extract_python_functions (fun _ => Except.error "SyntaxError") "(".data
      = [] :=
  C3_python_locator_fails_closed _ "(".data "SyntaxError" rfl

lemma def_prefixed_head {l : List Char}
    (h : "def ".data.isPrefixOf l = true) : ∃ t, l = 'd' :: t := by
  cases l with
  | nil => exact absurd h (by decide)
  | cons b bs =>
    have hb : ('d' == b && "ef ".data.isPrefixOf bs) = true := h
    have hd := (Bool.and_eq_true _ _).mp hb |>.1
    exact ⟨bs, by rw [eq_of_beq hd]⟩

lemma end_prefixed_head {l : List Char}
    (h : "end".data.isPrefixOf l = true) : ∃ t, l = 'e' :: t := by
  cases l with
  | nil => exact absurd h (by decide)
  | cons b bs =>
    have hb : ('e' == b && "nd".data.isPrefixOf bs) = true := h
    have hd := (Bool.and_eq_true _ _).mp hb |>.1
    exact ⟨bs, by rw [eq_of_beq hd]⟩

/-- C5: the keyword-depth resolver skips blank and comment-only lines
without affecting depth (first conjunct), increments the depth on a line
whose trimmed content begins with the opening keyword `def ` (second
conjunct), decrements on a line whose trimmed content begins with the
closing keyword `end` while the depth is positive, returning that line's
1-based number exactly when the depth reaches zero (third conjunct);
falling off the file returns its last line number (fourth conjunct); and
on `"def f\n  x\nend\n"` with `start_line = 1` it returns 3. -/
theorem C5_ruby_resolver :
    (∀ (depth : Int) (i : Nat) (line : List Char) (rest : List (List Char)),
        ((py_strip line).isEmpty
            || "#".data.isPrefixOf (py_strip line)) = true →
        find_ruby_end_line_loop depth i (line :: rest)
          = find_ruby_end_line_loop depth (i + 1) rest)
    ∧ (∀ (depth : Int) (i : Nat) (line : List Char) (rest : List (List Char)),
        "def ".data.isPrefixOf (py_strip line) = true →
        find_ruby_end_line_loop depth i (line :: rest)
          = find_ruby_end_line_loop (depth + 1) (i + 1) rest)
    ∧ (∀ (depth : Int) (i : Nat) (line : List Char) (rest : List (List Char)),
        "end".data.isPrefixOf (py_strip line) = true → 0 < depth →
        find_ruby_end_line_loop depth i (line :: rest)
          = if depth - 1 = 0 then some (i + 1)
            else find_ruby_end_line_loop (depth - 1) (i + 1) rest)
    ∧ (∀ (lines : List (List Char)) (start_line : Nat),
        find_ruby_end_line_loop 0 (start_line - 1)
            (lines.drop (start_line - 1)) = none →
        find_ruby_end_line lines start_line = lines.length)
    ∧ find_ruby_end_line (pySplitlines "def f\n  x\nend\n".data) 1 = 3 := by
  refine ⟨?_, ?_, ?_, ?_, by decide⟩
  · intro d i line rest h
    simp [find_ruby_end_line_loop, h]
  · intro d i line rest h
    obtain ⟨t, ht⟩ := def_prefixed_head h
    rw [ht] at h
    have c1 : ("#".data.isPrefixOf ('d' :: t)) = false := rfl
    have c2 : (('d' :: t) == "end".data) = false := rfl
    have c3 : ("end".data.isPrefixOf ('d' :: t)) = false := rfl
    simp [find_ruby_end_line_loop, ht, h, c1, c2, c3]
  · intro d i line rest h hd
    obtain ⟨t, ht⟩ := end_prefixed_head h
    rw [ht] at h
    have c1 : ("#".data.isPrefixOf ('e' :: t)) = false := rfl
    have c2 : ("def ".data.isPrefixOf ('e' :: t)) = false := rfl
    simp [find_ruby_end_line_loop, ht, h, c1, c2, hd]
  · intro lines s h
    simp [find_ruby_end_line, h]

/-- C5 witness: the four conditional conjuncts applied to a blank line, a
`def` line, an `end` line at depth 1, and the empty file. -/
theorem C5_ruby_resolver_witness :
    (find_ruby_end_line_loop 0 0 [" ".data] = find_ruby_end_line_loop 0 1 [])
    ∧ (find_ruby_end_line_loop 0 0 ["def g".data]
        = find_ruby_end_line_loop 1 1 [])
    ∧ (find_ruby_end_line_loop 1 0 ["end".data]
        = if (1 : Int) - 1 = 0 then some 1 else find_ruby_end_line_loop 0 1 [])
    ∧ find_ruby_end_line [] 1 = 0 :=
  ⟨C5_ruby_resolver.1 0 0 " ".data [] (by decide),
   C5_ruby_resolver.2.1 0 0 "def g".data [] (by decide),
   C5_ruby_resolver.2.2.1 1 0 "end".data [] (by decide) (by decide),
   C5_ruby_resolver.2.2.2.1 [] 1 (by decide)⟩

lemma intercalate_pair (a b : List Char) :
    List.intercalate ['.'] [a, b] = a ++ '.' :: b := by
  simp [List.intercalate, List.intersperse]

/-- C6: on a parseable input consisting of a function definition nested
inside a class, the exact-syntax locator reports the hit's qualified name
as the enclosing scope joined with the function's own name by a dot. -/
theorem C6_nested_qualified_name :
    ∀ (parse : List Char → Except String (List PyNode)) (source : List Char)
      (outer inner : List Char) (lineno end_lineno : Nat),
      parse source
        = Except.ok [PyNode.classDef outer
            [PyNode.functionDef inner lineno end_lineno []]] →
      (extract_python_functions parse source).map FunctionHit.name
        = [outer ++ '.' :: inner] := by
  intro parse src outer inner l e h
  unfold extract_python_functions
  rw [h]
  simp [visitList, visitNode, visitor_name, intercalate_pair]

/-- C6 witness: a class `OuterScope` containing `inner_name` yields the
qualified name `OuterScope.inner_name`. -/
theorem C6_nested_qualified_name_witness :
    (extract_python_functions
        (fun _ => Except.ok
          [PyNode.classDef "OuterScope".data
            [PyNode.functionDef "inner_name".data 2 3 []]])
        "src".data).map FunctionHit.name
      = ["OuterScope.inner_name".data] := by
  have h := C6_nested_qualified_name
    (fun _ => Except.ok
      [PyNode.classDef "OuterScope".data
        [PyNode.functionDef "inner_name".data 2 3 []]])
    "src".data "OuterScope".data "inner_name".data 2 3 rfl
  rw [h]
  decide

/-- C10: the visitor's scope stack records only enclosing classes — a
function nested in another function with no enclosing class is reported
under its own bare name (first conjunct), while an enclosing class (even
across an intermediate function) does appear in the dotted path (second
conjunct). -/
theorem C10_function_scope_not_recorded :
    (∀ (parse : List Char → Except String (List PyNode)) (source : List Char)
        (f g : List Char) (l1 e1 l2 e2 : Nat),
        parse source
          = Except.ok [PyNode.functionDef f l1 e1
              [PyNode.functionDef g l2 e2 []]] →
        (extract_python_functions parse source).map FunctionHit.name
          = [f, g])
    ∧ (∀ (cls f g : List Char) (l1 e1 l2 e2 : Nat),
        (visitList [] [PyNode.classDef cls
            [PyNode.functionDef f l1 e1
              [PyNode.functionDef g l2 e2 []]]]).map FunctionHit.name
          = [cls ++ '.' :: f, cls ++ '.' :: g]) := by
  constructor
  · intro parse src f g l1 e1 l2 e2 h
    unfold extract_python_functions
    rw [h]
    simp [visitList, visitNode, visitor_name]
  · intro cls f g l1 e1 l2 e2
    simp [visitList, visitNode, visitor_name, intercalate_pair]

/-- C10 witness: `def outer` containing `def inner` at module level
reports the inner function under its bare name. -/
theorem C10_function_scope_not_recorded_witness :
    (extract_python_functions
        (fun _ => Except.ok
          [PyNode.functionDef "outer".data 1 3
            [PyNode.functionDef "inner".data 2 3 []]])
        "src".data).map FunctionHit.name
      = ["outer".data, "inner".data] :=
  C10_function_scope_not_recorded.1
    (fun _ => Except.ok
      [PyNode.functionDef "outer".data 1 3
        [PyNode.functionDef "inner".data 2 3 []]])
    "src".data "outer".data "inner".data 1 3 2 3 rfl

lemma regex_functions_loop_lb (patterns : List RePattern) (kind : String) :
    ∀ (ls : List (List Char)) (n : Nat) (h : FunctionHit),
      h ∈ regex_functions_loop patterns kind n ls → n ≤ h.start_line := by
  intro ls
  induction ls with
  | nil =>
    intro n h hm
    simp [regex_functions_loop] at hm
  | cons l ls ih =>
    intro n h hm
    simp only [regex_functions_loop] at hm
    cases hrl : regex_line_hit patterns l with
    | some name =>
      rw [hrl] at hm
      simp only [List.mem_cons] at hm
      rcases hm with rfl | hm
      · simp
      · have hb := ih (n + 1) h hm
        omega
    | none =>
      rw [hrl] at hm
      have hb := ih (n + 1) h hm
      omega

lemma regex_functions_loop_pairwise (patterns : List RePattern)
    (kind : String) :
    ∀ (ls : List (List Char)) (n : Nat),
      List.Pairwise (fun a b : FunctionHit => a.start_line < b.start_line)
        (regex_functions_loop patterns kind n ls) := by
  intro ls
  induction ls with
  | nil =>
    intro n
    simp [regex_functions_loop]
  | cons l ls ih =>
    intro n
    simp only [regex_functions_loop]
    cases hrl : regex_line_hit patterns l with
    | some name =>
      show List.Pairwise (fun a b : FunctionHit => a.start_line < b.start_line)
        (⟨name, n, 0, kind⟩ :: regex_functions_loop patterns kind (n + 1) ls)
      refine List.Pairwise.cons ?_ (ih (n + 1))
      intro b hb
      have hlb := regex_functions_loop_lb patterns kind ls (n + 1) b hb
      change n < b.start_line
      omega
    | none =>
      exact ih (n + 1)

lemma regex_functions_loop_mem (patterns : List RePattern) (kind : String) :
    ∀ (ls : List (List Char)) (n : Nat) (h : FunctionHit),
      h ∈ regex_functions_loop patterns kind n ls →
      n ≤ h.start_line
      ∧ (∃ line, ls[h.start_line - n]? = some line
          ∧ regex_line_hit patterns line = some h.name)
      ∧ h.end_line = 0 ∧ h.kind = kind := by
  intro ls
  induction ls with
  | nil =>
    intro n h hm
    simp [regex_functions_loop] at hm
  | cons l ls ih =>
    intro n h hm
    simp only [regex_functions_loop] at hm
    cases hrl : regex_line_hit patterns l with
    | some name =>
      rw [hrl] at hm
      simp only [List.mem_cons] at hm
      rcases hm with rfl | hm
      · refine ⟨by simp, ⟨l, ?_, ?_⟩, rfl, rfl⟩
        · simp
        · simpa using hrl
      · obtain ⟨hle, ⟨line, hget, hhit⟩, he, hk⟩ := ih (n + 1) h hm
        refine ⟨by omega, ⟨line, ?_, hhit⟩, he, hk⟩
        have hs : h.start_line - n = (h.start_line - (n + 1)) + 1 := by omega
        rw [hs, List.getElem?_cons_succ]
        exact hget
    | none =>
      rw [hrl] at hm
      obtain ⟨hle, ⟨line, hget, hhit⟩, he, hk⟩ := ih (n + 1) h hm
      refine ⟨by omega, ⟨line, ?_, hhit⟩, he, hk⟩
      have hs : h.start_line - n = (h.start_line - (n + 1)) + 1 := by omega
      rw [hs, List.getElem?_cons_succ]
      exact hget

/-- C7: for every pattern list (so for each of the four pattern-based
locators, which instantiate `_regex_functions` with their pattern lists)
the hits carry strictly increasing start lines — hence at most one hit per
physical line, in top-to-bottom order — and every hit's name is the result
of the first matching pattern on its line (`regex_line_hit` tries the
patterns in order and stops at the first match). -/
theorem C7_pattern_locator_order :
    ∀ (patterns : List RePattern) (kind : String) (source : List Char),
      List.Pairwise (fun a b : FunctionHit => a.start_line < b.start_line)
        (_regex_functions source patterns kind)
      ∧ ∀ h ∈ _regex_functions source patterns kind,
          ∃ line, (pySplitlines source)[h.start_line - 1]? = some line
            ∧ regex_line_hit patterns line = some h.name
            ∧ h.end_line = 0 ∧ h.kind = kind := by
  intro patterns kind src
  constructor
  · exact regex_functions_loop_pairwise patterns kind (pySplitlines src) 1
  · intro h hm
    obtain ⟨hle, ⟨line, hget, hhit⟩, he, hk⟩ :=
      regex_functions_loop_mem patterns kind (pySplitlines src) 1 h hm
    exact ⟨line, hget, hhit, he, hk⟩

/-- C7 witness: a match-everything pattern on a two-line source gives hits
on lines 1 and 2 in order, and the first hit's name is the first pattern's
match on line 1. -/
theorem C7_pattern_locator_order_witness :
    List.Pairwise (fun a b : FunctionHit => a.start_line < b.start_line)
      (_regex_functions "a\nb".data [fun l => some l] "k")
    ∧ ∃ line, (pySplitlines "a\nb".data)[(1 : Nat) - 1]? = some line
        ∧ regex_line_hit [fun l => some l] line = some ['a']
        ∧ (0 : Nat) = 0 ∧ "k" = "k" :=
  ⟨(C7_pattern_locator_order [fun l => some l] "k" "a\nb".data).1,
   (C7_pattern_locator_order [fun l => some l] "k" "a\nb".data).2
     ⟨['a'], 1, 0, "k"⟩ (by decide)⟩

